import Mathlib

/-!
# EcoVision core pipeline: shallow embedding and verification

A shallow embedding, in Lean 4, of the core logic of `eco.py`:

* the impact-breakdown normalizer inside `call_gemini_for_waste`
  (sum, rescale to `raw * 100 / total`, round to one decimal place,
  with the `or 1` substitution for a zero sum);
* the JSON extraction rule of `call_gemini_for_waste`
  (first `{` / last `}` slicing, error with a 200-character excerpt);
* the pie-chart slice computation of `fig_pie_impact`;
* the side-by-side image placement arithmetic of `_place_two_images`;
* the text fragments emitted by `make_pdf_report`, including the
  Unicode-font fallback substitution of the bullet character;
* the date-indexed eco tip of `eco_tip_of_the_day`;
* the history store `load_stats` / `save_stats` / `store_result`;
* the green-score heuristic described in the specification.

Python floats are modelled by `ℚ`; `round(x, 1)` is modelled by exact
rational rounding to one decimal place.  Python strings are modelled by
`String` / `List Char`.
-/

namespace EcoVision

/-- Models Python `round(x, 1)`: rounding a value to one decimal place
(exact rational version; Python rounds binary floats half-to-even, which
agrees with this model away from ties). -/
def round1 (q : ℚ) : ℚ := ((round (q * 10) : ℤ) : ℚ) / 10

/-- The four fixed impact labels (`IMPACT_LABELS` in `eco.py`). -/
def IMPACT_LABELS : List String :=
  ["Greenhouse Emissions", "Soil Contamination", "Water Pollution", "Energy Use"]

/-- An impact breakdown: the rational value attached to each of the 4 fixed
impact labels.  A Python dict missing a key is modelled by storing the
default `0` that `imp.get(k, 0)` would produce. -/
structure ImpactMap where
  ghg : ℚ
  soil : ℚ
  water : ℚ
  energy : ℚ
  deriving DecidableEq, Repr

/-- The all-zero impact breakdown (a dict with no usable keys). -/
def ImpactMap.zero : ImpactMap := ⟨0, 0, 0, 0⟩

/-- `sum(float(imp.get(k, 0)) for k in IMPACT_LABELS)` in
`call_gemini_for_waste`. -/
def impact_total (m : ImpactMap) : ℚ := m.ghg + m.soil + m.water + m.energy

/-- The impact-breakdown re-normalization of `call_gemini_for_waste`:
`total = sum(...) or 1` (Python `or` substitutes `1` exactly when the sum
is `0.0`, i.e. falsy), then each label is rescaled to
`round(float(imp.get(k, 0)) * 100 / total, 1)`. -/
def normalize_impact (m : ImpactMap) : ImpactMap :=
  let total : ℚ := if impact_total m = 0 then 1 else impact_total m
  ⟨round1 (m.ghg * 100 / total), round1 (m.soil * 100 / total),
   round1 (m.water * 100 / total), round1 (m.energy * 100 / total)⟩

/-- The sum of the four values of a normalized breakdown. -/
def normalized_sum (m : ImpactMap) : ℚ := impact_total (normalize_impact m)

/-- The slice sizes computed by `fig_pie_impact`:
`sizes = [max(0, float(impact.get(k, 0))) for k in IMPACT_LABELS]`,
then `s = sum(sizes); if s <= 0: sizes = [25, 25, 25, 25]`. -/
def pie_sizes (m : ImpactMap) : List ℚ :=
  let sizes : List ℚ := [max 0 m.ghg, max 0 m.soil, max 0 m.water, max 0 m.energy]
  if sizes.sum ≤ 0 then [25, 25, 25, 25] else sizes

example : normalize_impact ⟨10, 10, 10, 10⟩ = ⟨25, 25, 25, 25⟩ := by
  norm_num [normalize_impact, impact_total, round1, round_eq]

example : normalize_impact ⟨0, 0, 0, 0⟩ = ⟨0, 0, 0, 0⟩ := by
  norm_num [normalize_impact, impact_total, round1, round_eq]

example : normalize_impact ⟨51, 51, 51, 247⟩ = ⟨64/5, 64/5, 64/5, 309/5⟩ := by
  norm_num [normalize_impact, impact_total, round1, round_eq]

example : pie_sizes ⟨-5, 10, 0, 0⟩ = [0, 10, 0, 0] := by
  norm_num [pie_sizes]

example : pie_sizes ⟨-5, -1, 0, 0⟩ = [25, 25, 25, 25] := by
  norm_num [pie_sizes]

/-- Rounding to one decimal place moves a rational by at most `1/20`. -/
theorem abs_round1_sub_le (q : ℚ) : |round1 q - q| ≤ 1 / 20 := by
  have h := abs_sub_round (q * 10)
  have e : round1 q - q = -((q * 10 - ((round (q * 10) : ℤ) : ℚ)) / 10) := by
    rw [round1]; ring
  rw [e, abs_neg, abs_div, abs_of_nonneg (show (0 : ℚ) ≤ 10 by norm_num)]
  linarith

/-- The four rescaled (pre-rounding) percentages sum to exactly 100 when the
raw total is nonzero. -/
theorem rescaled_sum_eq_100 (m : ImpactMap) (h : impact_total m ≠ 0) :
    m.ghg * 100 / impact_total m + m.soil * 100 / impact_total m +
      m.water * 100 / impact_total m + m.energy * 100 / impact_total m = 100 := by
  rw [div_add_div_same, div_add_div_same, div_add_div_same]
  rw [div_eq_iff h]
  rw [impact_total]
  ring

/-- C1 counterexample: the claim's sum invariant (output sums to 100.0 within
0.1, including for the all-zero mapping) fails on the code.  For the all-zero
mapping the substituted total `1` yields four zeros, which sum to `0`; and for
the non-negative raw mapping `(51, 51, 51, 247)` each exact percentage is a
half-way tie that rounds away from it, so the rounded outputs sum to `100.2`,
outside the 0.1 tolerance. -/
theorem C1_counterexample :
    normalized_sum ⟨0, 0, 0, 0⟩ = 0 ∧
    normalized_sum ⟨51, 51, 51, 247⟩ = 501 / 5 ∧
    ¬ |normalized_sum ⟨0, 0, 0, 0⟩ - 100| ≤ 1 / 10 ∧
    ¬ |normalized_sum ⟨51, 51, 51, 247⟩ - 100| ≤ 1 / 10 := by
  norm_num [normalized_sum, normalize_impact, impact_total, round1, round_eq]
  rw [abs_of_nonneg (show (0 : ℚ) ≤ 1 / 5 by norm_num)]
  norm_num

/-- C1 (amended): for every raw impact mapping assigning a non-negative value
to each of the 4 fixed labels, the output breakdown assigns each label
`round1 (raw * 100 / total)` with the total replaced by 1 when it is ≤ 0
(which, for non-negative inputs, is exactly the code's substitution for a
zero sum); when the raw total is positive the four output values sum to
100.0 within a tolerance of 0.2, and for the all-zero mapping the output is
the all-zero breakdown (summing to 0, not 100). -/
theorem C1_impact_normalizer_amended (m : ImpactMap)
    (hg : 0 ≤ m.ghg) (hs : 0 ≤ m.soil) (hw : 0 ≤ m.water) (he : 0 ≤ m.energy) :
    (normalize_impact m =
      ⟨round1 (m.ghg * 100 / if impact_total m ≤ 0 then 1 else impact_total m),
       round1 (m.soil * 100 / if impact_total m ≤ 0 then 1 else impact_total m),
       round1 (m.water * 100 / if impact_total m ≤ 0 then 1 else impact_total m),
       round1 (m.energy * 100 / if impact_total m ≤ 0 then 1 else impact_total m)⟩) ∧
    (0 < impact_total m → |normalized_sum m - 100| ≤ 1 / 5) ∧
    (impact_total m = 0 → normalize_impact m = ImpactMap.zero) := by
  have ht : 0 ≤ impact_total m := by
    rw [impact_total]; linarith
  refine ⟨?_, ?_, ?_⟩
  · by_cases h0 : impact_total m = 0
    · simp [normalize_impact, h0]
    · have hpos : 0 < impact_total m := lt_of_le_of_ne ht (Ne.symm h0)
      have hnle : ¬ impact_total m ≤ 0 := not_le.mpr hpos
      simp [normalize_impact, h0, hnle]
  · intro hpos
    have hne : impact_total m ≠ 0 := ne_of_gt hpos
    have hS : normalized_sum m =
        round1 (m.ghg * 100 / impact_total m) + round1 (m.soil * 100 / impact_total m) +
          round1 (m.water * 100 / impact_total m) + round1 (m.energy * 100 / impact_total m) := by
      simp only [normalized_sum, normalize_impact, if_neg hne]
      rw [impact_total]
    have hp := rescaled_sum_eq_100 m hne
    have b1 := abs_le.mp (abs_round1_sub_le (m.ghg * 100 / impact_total m))
    have b2 := abs_le.mp (abs_round1_sub_le (m.soil * 100 / impact_total m))
    have b3 := abs_le.mp (abs_round1_sub_le (m.water * 100 / impact_total m))
    have b4 := abs_le.mp (abs_round1_sub_le (m.energy * 100 / impact_total m))
    rw [hS, abs_le]
    obtain ⟨l1, r1⟩ := b1
    obtain ⟨l2, r2⟩ := b2
    obtain ⟨l3, r3⟩ := b3
    obtain ⟨l4, r4⟩ := b4
    constructor <;> linarith
  · intro h0
    have hg0 : m.ghg = 0 := by rw [impact_total] at h0; linarith
    have hs0 : m.soil = 0 := by rw [impact_total] at h0; linarith
    have hw0 : m.water = 0 := by rw [impact_total] at h0; linarith
    have he0 : m.energy = 0 := by rw [impact_total] at h0; linarith
    simp [normalize_impact, ImpactMap.zero, h0, hg0, hs0, hw0, he0, round1]

/-- C1 witness: the amended theorem applied at the concrete non-negative
mapping `(10, 20, 30, 40)`. -/
theorem C1_impact_normalizer_amended_witness :
    |normalized_sum ⟨10, 20, 30, 40⟩ - 100| ≤ 1 / 5 :=
  (C1_impact_normalizer_amended ⟨10, 20, 30, 40⟩ (by norm_num) (by norm_num)
      (by norm_num) (by norm_num)).2.1 (by norm_num [impact_total])

/-- C6: the normalizer is idempotent on breakdowns whose four values are
already rounded to one decimal place and already sum to exactly 100: the
re-normalization returns the same four values unchanged. -/
theorem C6_normalize_idempotent (m : ImpactMap)
    (h1 : round1 m.ghg = m.ghg) (h2 : round1 m.soil = m.soil)
    (h3 : round1 m.water = m.water) (h4 : round1 m.energy = m.energy)
    (hsum : impact_total m = 100) :
    normalize_impact m = m := by
  have hcancel : ∀ x : ℚ, x * 100 / 100 = x := by
    intro x; field_simp
  simp only [normalize_impact, hsum]
  norm_num [hcancel, h1, h2, h3, h4]

/-- C6 witness: idempotence at the already-normalized breakdown
`(25, 25, 25, 25)`. -/
theorem C6_normalize_idempotent_witness :
    normalize_impact ⟨25, 25, 25, 25⟩ = ⟨25, 25, 25, 25⟩ :=
  C6_normalize_idempotent ⟨25, 25, 25, 25⟩
    (by norm_num [round1, round_eq]) (by norm_num [round1, round_eq])
    (by norm_num [round1, round_eq]) (by norm_num [round1, round_eq])
    (by norm_num [impact_total])

/-- C10: every slice size computed by the pie renderer is non-negative
(each raw value is clamped below at 0 before summing); the equal-slice
fallback `[25, 25, 25, 25]` is taken exactly when every raw value is ≤ 0
(equivalently, when the clamped sum is ≤ 0); and an input mixing negative
and positive values keeps its clamped sizes, rendering negative labels as
zero-size slices rather than triggering the fallback. -/
theorem C10_pie_slices (m : ImpactMap) :
    (∀ x ∈ pie_sizes m, 0 ≤ x) ∧
    ((m.ghg ≤ 0 ∧ m.soil ≤ 0 ∧ m.water ≤ 0 ∧ m.energy ≤ 0) →
      pie_sizes m = [25, 25, 25, 25]) ∧
    ((0 < m.ghg ∨ 0 < m.soil ∨ 0 < m.water ∨ 0 < m.energy) →
      pie_sizes m = [max 0 m.ghg, max 0 m.soil, max 0 m.water, max 0 m.energy]) := by
  have n1 : (0 : ℚ) ≤ max 0 m.ghg := le_max_left 0 _
  have n2 : (0 : ℚ) ≤ max 0 m.soil := le_max_left 0 _
  have n3 : (0 : ℚ) ≤ max 0 m.water := le_max_left 0 _
  have n4 : (0 : ℚ) ≤ max 0 m.energy := le_max_left 0 _
  refine ⟨?_, ?_, ?_⟩
  · intro x hx
    rw [pie_sizes] at hx
    split at hx <;> simp at hx <;>
      rcases hx with rfl | rfl | rfl | rfl <;> norm_num
  · rintro ⟨a, b, c, d⟩
    rw [pie_sizes]
    rw [max_eq_left a, max_eq_left b, max_eq_left c, max_eq_left d]
    norm_num
  · intro h
    rw [pie_sizes]
    apply if_neg
    have hx : m.ghg ≤ max 0 m.ghg := le_max_right 0 _
    have hy : m.soil ≤ max 0 m.soil := le_max_right 0 _
    have hz : m.water ≤ max 0 m.water := le_max_right 0 _
    have hu : m.energy ≤ max 0 m.energy := le_max_right 0 _
    simp only [List.sum_cons, List.sum_nil, not_le]
    rcases h with h | h | h | h <;> linarith

/-- C10 witness: the theorem applied at an all-non-positive mapping (which
takes the fallback) and at a mixed-sign mapping (whose negative label is
rendered as a zero-size slice, with no fallback). -/
theorem C10_pie_slices_witness :
    pie_sizes ⟨-1, -2, 0, -3⟩ = [25, 25, 25, 25] ∧
    pie_sizes ⟨-5, 10, 0, 0⟩ = [0, 10, 0, 0] := by
  constructor
  · exact (C10_pie_slices ⟨-1, -2, 0, -3⟩).2.1 (by norm_num)
  · rw [(C10_pie_slices ⟨-5, 10, 0, 0⟩).2.2 (by norm_num)]
    norm_num

/-! ## PDF layout constants and side-by-side image placement -/

/-- `PAGE_W` in `eco.py` (mm). -/
def PAGE_W : ℚ := 210

/-- `PAGE_H` in `eco.py` (mm). -/
def PAGE_H : ℚ := 297

/-- `MARGIN` in `eco.py` (mm). -/
def MARGIN : ℚ := 15

/-- `EFF_W = PAGE_W - 2 * MARGIN` in `eco.py` (mm). -/
def EFF_W : ℚ := PAGE_W - 2 * MARGIN

/-- The geometry computed by `_place_two_images`: final widths and heights of
the two images, their x positions, and the advanced y cursor. -/
structure PlaceTwoResult where
  w1 : ℚ
  h1 : ℚ
  w2 : ℚ
  h2 : ℚ
  x1 : ℚ
  x2 : ℚ
  yNext : ℚ
  deriving DecidableEq, Repr

/-- `_place_two_images(pdf, img1_path, img2_path, w1, w2, gutter)`:
heights are derived from each image's native size (`i1w × i1h`,
`i2w × i2h`) to preserve aspect ratio; if `w1 + gutter + w2 > EFF_W`, the
scale `EFF_W / (w1 + gutter + w2)` is applied to both widths and both
heights (the gutter itself is left unscaled); the images are placed at
`x1 = MARGIN` and `x2 = MARGIN + w1 + gutter`, and the y cursor advances
past the taller image plus 5 mm of padding. -/
def place_two_images (i1w i1h i2w i2h w1 w2 gutter y : ℚ) : PlaceTwoResult :=
  let h1 := w1 * (i1h / i1w)
  let h2 := w2 * (i2h / i2w)
  if EFF_W < w1 + gutter + w2 then
    let scale := EFF_W / (w1 + gutter + w2)
    let w1s := w1 * scale
    let w2s := w2 * scale
    let h1s := h1 * scale
    let h2s := h2 * scale
    ⟨w1s, h1s, w2s, h2s, MARGIN, MARGIN + w1s + gutter, y + max h1s h2s + 5⟩
  else
    ⟨w1, h1, w2, h2, MARGIN, MARGIN + w1 + gutter, y + max h1 h2 + 5⟩

/-- C2 (code bug): with two 1×1 images requested at widths 100 and 100 with
a 6 mm gutter (combined request 206 mm > 180 mm), the code computes the
scale `EFF_W / (w1 + gutter + w2) = 90/103` and applies it to both widths,
but leaves the gutter unscaled, so the resulting combined width
`w1' + gutter + w2' = 18618/103 ≈ 180.76 mm` strictly exceeds the 180 mm
effective content width instead of equalling it — contradicting the
function's own docstring ("Place two images side-by-side within margins")
and the claim's scale-to-fit property. -/
theorem C2_place_two_images_gutter_bug :
    ((place_two_images 1 1 1 1 100 100 6 0).w1 + 6 +
        (place_two_images 1 1 1 1 100 100 6 0).w2 = 18618 / 103) ∧
    EFF_W < (place_two_images 1 1 1 1 100 100 6 0).w1 + 6 +
        (place_two_images 1 1 1 1 100 100 6 0).w2 := by
  norm_num [place_two_images, EFF_W, PAGE_W, MARGIN]

/-! ## History store -/

/-- One history record, as built by `store_result` in `eco.py`. -/
structure Entry where
  id : String
  timestamp : String
  category : String
  confidence : ℚ
  disposal_steps : List String
  impact_breakdown : ImpactMap
  notes : String
  image_b64 : String
  deriving DecidableEq, Repr

/-- The untyped `result` dict handed to `store_result`; a missing key is
`none` and is read through `result.get(key, default)`. -/
structure ResultDict where
  category : Option String
  confidence : Option ℚ
  disposal_steps : Option (List String)
  impact_breakdown : Option ImpactMap
  notes : Option String
  deriving DecidableEq, Repr

/-- The entry `store_result` constructs: `rec_id` models `uuid.uuid4()`,
`ts` models `datetime.now().isoformat(...)`, and `image_b64` models the
base64 encoding of the uploaded image bytes; the remaining fields are read
from the result dict with the source's defaults. -/
def mk_entry (rec_id ts image_b64 : String) (r : ResultDict) : Entry :=
  ⟨rec_id, ts, r.category.getD "mixed", r.confidence.getD 0,
   r.disposal_steps.getD [], r.impact_breakdown.getD ImpactMap.zero,
   r.notes.getD "", image_b64⟩

/-- The state touched by the history store: the in-memory
`st.session_state.history` list, the backing `ecovision_stats.json` file
(`none` when absent or unparsable), and the non-fatal warnings emitted so
far by `st.warning`. -/
structure StoreState where
  memory : List Entry
  disk : Option (List Entry)
  warnings : List String
  deriving DecidableEq, Repr

/-- `save_stats(data)`: writes the full history to the backing file (and
busts the read cache) when the write succeeds; when the write raises any
exception, the `except` clause swallows it and emits a non-fatal warning,
leaving the file untouched.  `write_ok` models whether the file write
raises. -/
def save_stats (write_ok : Bool) (hist : List Entry) (s : StoreState) : StoreState :=
  if write_ok then ⟨s.memory, some hist, s.warnings⟩
  else ⟨s.memory, s.disk, s.warnings ++ ["Couldn't save stats"]⟩

/-- `store_result(image_bytes, result)`: builds the entry, inserts it at
index 0 of the in-memory history, then calls `save_stats` on the whole
list, and returns the entry.  It is a total function of its inputs: the
only fallible step (the file write) is wrapped in `save_stats`'s
catch-all `except`, so no exception propagates to the caller. -/
def store_result (write_ok : Bool) (rec_id ts image_b64 : String)
    (r : ResultDict) (s : StoreState) : StoreState × Entry :=
  let entry := mk_entry rec_id ts image_b64 r
  let mem := entry :: s.memory
  (save_stats write_ok mem ⟨mem, s.disk, s.warnings⟩, entry)

/-- `load_stats()` (as read through `.get("history", [])`): the backing
file's history list, or the empty list when the file is absent or
unparsable. -/
def load_stats (disk : Option (List Entry)) : List Entry := disk.getD []

/-- C7: the history is most-recent-first: starting from any store state,
appending record A and then record B (with both file writes succeeding)
makes `load_stats` return the list with B first, A second, and the prior
in-memory history behind them. -/
theorem C7_history_most_recent_first (s : StoreState)
    (idA tsA bA idB tsB bB : String) (rA rB : ResultDict) :
    load_stats (store_result true idB tsB bB rB
        (store_result true idA tsA bA rA s).1).1.disk =
      (store_result true idB tsB bB rB (store_result true idA tsA bA rA s).1).2 ::
        (store_result true idA tsA bA rA s).2 :: s.memory := by
  simp [store_result, save_stats, load_stats]

/-- C8: when the backing-file write fails, the append does not raise to its
caller (`store_result` stays a total function returning the new entry — the
source wraps the only fallible step in a catch-all `except`), the failure
surfaces only as a non-fatal warning, the file is left untouched, and the
in-memory history still holds the newly appended record at the front. -/
theorem C8_write_failure_best_effort (s : StoreState)
    (rec_id ts b64 : String) (r : ResultDict) :
    ((store_result false rec_id ts b64 r s).1.memory =
        mk_entry rec_id ts b64 r :: s.memory) ∧
    ((store_result false rec_id ts b64 r s).1.disk = s.disk) ∧
    ((store_result false rec_id ts b64 r s).1.warnings =
        s.warnings ++ ["Couldn't save stats"]) ∧
    ((store_result false rec_id ts b64 r s).2 = mk_entry rec_id ts b64 r) := by
  simp [store_result, save_stats]

/-! ## JSON extraction (`call_gemini_for_waste`) -/

/-- Python `text.find(ch)` for a single character: the index of the first
occurrence, or `none` (Python returns `-1`) when absent. -/
def pyFind (c : Char) : List Char → Option Nat
  | [] => none
  | x :: xs => if x = c then some 0 else (pyFind c xs).map (fun n => n + 1)

/-- Python `text.rfind(ch)` for a single character: the index of the last
occurrence, or `none` (Python returns `-1`) when absent. -/
def pyRFind (c : Char) : List Char → Option Nat
  | [] => none
  | x :: xs =>
    match pyRFind c xs with
    | some j => some (j + 1)
    | none => if x = c then some 0 else none

/-- The failure conditions of `call_gemini_for_waste` after the model call:
`noJson` is the `RuntimeError("Gemini did not return JSON. Raw: ...")`
raised with a 200-character excerpt when no `{` or no `}` is found, and
`parseFail` is the `json.loads` exception on the extracted substring.  The
spec's `MalformedResponse` condition covers both. -/
inductive GeminiError where
  | noJson (excerpt : List Char)
  | parseFail
  deriving DecidableEq, Repr

/-- The JSON extraction of `call_gemini_for_waste`:
`first = text.find("{")`, `last = text.rfind("}")`; if either is `-1` the
call raises with the excerpt `text[:200]`, otherwise the substring
`text[first:last + 1]` is handed to `json.loads`. -/
def extract_json (text : List Char) : Except GeminiError (List Char) :=
  match pyFind '{' text, pyRFind '}' text with
  | some first, some last => .ok ((text.drop first).take (last + 1 - first))
  | _, _ => .error (.noJson (text.take 200))

/-- The extraction-and-parse tail of `call_gemini_for_waste`: `parses`
models whether `json.loads` succeeds on a string; when it fails, the
`json.loads` exception propagates to the caller (`parseFail`). -/
def parse_ai_response (parses : List Char → Bool) (text : List Char) :
    Except GeminiError (List Char) :=
  match extract_json text with
  | .error e => .error e
  | .ok s => if parses s then .ok s else .error .parseFail

theorem pyFind_eq_none (c : Char) (l : List Char) : pyFind c l = none ↔ c ∉ l := by
  induction l with
  | nil => simp [pyFind]
  | cons x xs ih =>
    rw [pyFind]
    by_cases h : x = c
    · subst h; simp
    · rw [if_neg h, Option.map_eq_none', ih]
      simp only [List.mem_cons, not_or]
      exact ⟨fun hn => ⟨fun hc => h hc.symm, hn⟩, fun hp => hp.2⟩

theorem pyRFind_eq_none (c : Char) (l : List Char) : pyRFind c l = none ↔ c ∉ l := by
  induction l with
  | nil => simp [pyRFind]
  | cons x xs ih =>
    rw [pyRFind]
    cases hx : pyRFind c xs with
    | some j =>
      have hmem : c ∈ xs := by
        by_contra hc
        rw [ih.mpr hc] at hx
        cases hx
      simp [hmem]
    | none =>
      have hnmem : c ∉ xs := ih.mp hx
      by_cases h : x = c
      · subst h
        simp
      · rw [if_neg h]
        simp only [List.mem_cons, not_or]
        exact ⟨fun _ => ⟨fun hc => h hc.symm, hnmem⟩, fun _ => trivial⟩

/-- No occurrence of `c` strictly before the index returned by `pyFind`. -/
theorem pyFind_not_mem_take (c : Char) (l : List Char) (i : Nat)
    (h : pyFind c l = some i) : c ∉ l.take i := by
  induction l generalizing i with
  | nil => simp [pyFind] at h
  | cons x xs ih =>
    rw [pyFind] at h
    by_cases hx : x = c
    · rw [if_pos hx] at h
      cases h
      simp
    · rw [if_neg hx] at h
      cases hj : pyFind c xs with
      | none => rw [hj] at h; cases h
      | some j =>
        rw [hj] at h
        cases h
        simp only [List.take_succ_cons, List.mem_cons]
        rintro (hc | hc)
        · exact hx hc.symm
        · exact ih j hj hc

/-- The character at the index returned by `pyFind` is `c`. -/
theorem pyFind_getElem? (c : Char) (l : List Char) (i : Nat)
    (h : pyFind c l = some i) : l[i]? = some c := by
  induction l generalizing i with
  | nil => simp [pyFind] at h
  | cons x xs ih =>
    rw [pyFind] at h
    by_cases hx : x = c
    · rw [if_pos hx] at h
      cases h
      simp [hx]
    · rw [if_neg hx] at h
      cases hj : pyFind c xs with
      | none => rw [hj] at h; cases h
      | some j =>
        rw [hj] at h
        cases h
        simpa using ih j hj

/-- No occurrence of `c` strictly after the index returned by `pyRFind`. -/
theorem pyRFind_not_mem_drop (c : Char) (l : List Char) (j : Nat)
    (h : pyRFind c l = some j) : c ∉ l.drop (j + 1) := by
  induction l generalizing j with
  | nil => simp [pyRFind] at h
  | cons x xs ih =>
    rw [pyRFind] at h
    cases hj : pyRFind c xs with
    | some k =>
      rw [hj] at h
      cases h
      simpa using ih k hj
    | none =>
      rw [hj] at h
      by_cases hx : x = c
      · rw [if_pos hx] at h
        cases h
        simpa using (pyRFind_eq_none c xs).mp hj
      · rw [if_neg hx] at h
        cases h

/-- The character at the index returned by `pyRFind` is `c`. -/
theorem pyRFind_getElem? (c : Char) (l : List Char) (j : Nat)
    (h : pyRFind c l = some j) : l[j]? = some c := by
  induction l generalizing j with
  | nil => simp [pyRFind] at h
  | cons x xs ih =>
    rw [pyRFind] at h
    cases hj : pyRFind c xs with
    | some k =>
      rw [hj] at h
      cases h
      simpa using ih k hj
    | none =>
      rw [hj] at h
      by_cases hx : x = c
      · rw [if_pos hx] at h
        cases h
        simp [hx]
      · rw [if_neg hx] at h
        cases h

/-- C4: the JSON extraction parses exactly the substring of the input text
running from the first `{` to the last `}` inclusive: when both braces are
present, extraction succeeds and the extracted substring `s` splits the
text as `pre ++ s ++ post` with no `{` in `pre` and no `}` in `post`, and
`s` (when non-empty) begins with `{` and ends with `}`; when the text has
no `{` or no `}`, the operation fails with the `MalformedResponse`
condition carrying the 200-character excerpt `text[:200]`; and when the
extracted substring does not parse as JSON, the operation also fails with
a `MalformedResponse` (the propagated parse error). -/
theorem C4_json_extraction (parses : List Char → Bool) (text : List Char) :
    (('{' ∉ text ∨ '}' ∉ text) →
      parse_ai_response parses text = .error (.noJson (text.take 200))) ∧
    (('{' ∈ text ∧ '}' ∈ text) → ∃ s, extract_json text = .ok s) ∧
    (∀ s, extract_json text = .ok s →
      ∃ pre post, text = pre ++ s ++ post ∧ '{' ∉ pre ∧ '}' ∉ post ∧
        (s ≠ [] → s.head? = some '{' ∧ s.getLast? = some '}')) ∧
    (∀ s, extract_json text = .ok s → parses s = false →
      parse_ai_response parses text = .error .parseFail) := by
  refine ⟨?_, ?_, ?_, ?_⟩
  · rintro (h | h)
    · have h1 : pyFind '{' text = none := (pyFind_eq_none _ _).mpr h
      simp [parse_ai_response, extract_json, h1]
    · have h2 : pyRFind '}' text = none := (pyRFind_eq_none _ _).mpr h
      cases h1 : pyFind '{' text <;>
        simp [parse_ai_response, extract_json, h1, h2]
  · rintro ⟨hin1, hin2⟩
    cases h1 : pyFind '{' text with
    | none => exact absurd ((pyFind_eq_none _ _).mp h1) (by simp [hin1])
    | some f =>
      cases h2 : pyRFind '}' text with
      | none => exact absurd ((pyRFind_eq_none _ _).mp h2) (by simp [hin2])
      | some la => exact ⟨_, by rw [extract_json, h1, h2]⟩
  · intro s hs
    rw [extract_json] at hs
    cases h1 : pyFind '{' text with
    | none => rw [h1] at hs; cases h2 : pyRFind '}' text <;> rw [h2] at hs <;> cases hs
    | some f =>
      rw [h1] at hs
      cases h2 : pyRFind '}' text with
      | none => rw [h2] at hs; cases hs
      | some la =>
        rw [h2] at hs
        cases hs
        by_cases hfla : f ≤ la
        · refine ⟨text.take f, text.drop (la + 1), ?_,
            pyFind_not_mem_take _ _ _ h1, pyRFind_not_mem_drop _ _ _ h2, ?_⟩
          · have hdd : (text.drop f).drop (la + 1 - f) = text.drop (la + 1) := by
              rw [List.drop_drop]
              congr 1
              omega
            calc text = text.take f ++ text.drop f :=
                  (List.take_append_drop f text).symm
              _ = text.take f ++
                    ((text.drop f).take (la + 1 - f) ++ (text.drop f).drop (la + 1 - f)) := by
                  rw [List.take_append_drop (la + 1 - f) (text.drop f)]
              _ = text.take f ++ ((text.drop f).take (la + 1 - f) ++ text.drop (la + 1)) := by
                  rw [hdd]
              _ = text.take f ++ (text.drop f).take (la + 1 - f) ++ text.drop (la + 1) := by
                  rw [List.append_assoc]
          · intro hne
            have hlalen : la < text.length := by
              by_contra hno
              have hnone : text[la]? = none := List.getElem?_eq_none (by omega)
              rw [pyRFind_getElem? '}' text la h2] at hnone
              cases hnone
            constructor
            · have hlen1 : la + 1 - f = (la - f) + 1 := by omega
              cases hd : text.drop f with
              | nil =>
                rw [hd] at hne
                simp at hne
              | cons a rest =>
                have hget := pyFind_getElem? '{' text f h1
                rw [← List.head?_drop, hd] at hget
                simp only [List.head?_cons, Option.some.injEq] at hget
                rw [hlen1]
                simp [hget]
            · have hslen : ((text.drop f).take (la + 1 - f)).length = la + 1 - f := by
                rw [List.length_take, List.length_drop]
                omega
              rw [List.getLast?_eq_getElem?, hslen]
              have hidx : la + 1 - f - 1 = la - f := by omega
              rw [hidx, List.getElem?_take, if_pos (show la - f < la + 1 - f by omega),
                List.getElem?_drop]
              have hfla2 : f + (la - f) = la := by omega
              rw [hfla2]
              exact pyRFind_getElem? '}' text la h2
        · have hs0 : (text.drop f).take (la + 1 - f) = [] := by
            have h0 : la + 1 - f = 0 := by omega
            rw [h0, List.take_zero]
          refine ⟨text.take f, text.drop f, ?_, pyFind_not_mem_take _ _ _ h1, ?_, ?_⟩
          · rw [hs0, List.append_nil, List.take_append_drop]
          · have hsub : text.drop f ⊆ text.drop (la + 1) := by
              have hdf : text.drop f = (text.drop (la + 1)).drop (f - (la + 1)) := by
                rw [List.drop_drop]
                congr 1
                omega
              rw [hdf]
              exact List.drop_subset _ _
            intro hc
            exact pyRFind_not_mem_drop '}' text la h2 (hsub hc)
          · intro hne
            exact absurd hs0 hne
  · intro s hs hpf
    simp [parse_ai_response, hs, hpf]

/-- C4 witness: the theorem applied at concrete texts — one with both
braces (extraction succeeds) and one with no brace at all (extraction
fails with the excerpt-carrying error). -/
theorem C4_json_extraction_witness :
    (∃ s, extract_json ['a', '{', 'x', '}', 'b'] = .ok s) ∧
    parse_ai_response (fun _ => true) ['n', 'o', 'p'] =
      .error (.noJson (['n', 'o', 'p'].take 200)) := by
  constructor
  · exact (C4_json_extraction (fun _ => true) ['a', '{', 'x', '}', 'b']).2.1
      ⟨by decide, by decide⟩
  · exact (C4_json_extraction (fun _ => true) ['n', 'o', 'p']).1 (Or.inl (by decide))

/-! ## Eco tips and dates -/

/-- `ECO_TIPS` in `eco.py`, verbatim. -/
def ECO_TIPS : List String :=
  ["Carry a reusable bottle and refill instead of buying plastic.",
   "Keep separate bins for dry and wet waste to boost recycling quality.",
   "Say no to single-use cutlery—travel with a compact reusable set.",
   "Compost your kitchen scraps to cut methane from landfills.",
   "Buy in bulk and choose minimal packaging to reduce waste.",
   "Fix and reuse glass jars as storage containers.",
   "Switch to rechargeable batteries to cut e-waste.",
   "Donate old electronics to certified e-waste recyclers.",
   "Bring your own shopping bag—avoid plastic carry bags.",
   "Use cloth towels instead of paper for everyday cleaning."]

/-- `eco_tip_of_the_day()`: `ECO_TIPS[date.today().toordinal() % len(ECO_TIPS)]`.
The current date's proleptic ordinal is passed in as `ordinal`. -/
def eco_tip_of_the_day (ordinal : Nat) : String :=
  ECO_TIPS.getD (ordinal % ECO_TIPS.length) ""

/-- Proleptic Gregorian leap-year test, as in Python's `datetime`. -/
def isLeapYear (y : Nat) : Bool := y % 4 == 0 && (y % 100 != 0 || y % 400 == 0)

/-- Number of days in the months strictly before month `m` (1-based). -/
def daysBeforeMonth (m : Nat) (leap : Bool) : Nat :=
  let base :=
    match m with
    | 1 => 0 | 2 => 31 | 3 => 59 | 4 => 90 | 5 => 120 | 6 => 151
    | 7 => 181 | 8 => 212 | 9 => 243 | 10 => 273 | 11 => 304 | _ => 334
  if leap && decide (2 < m) then base + 1 else base

/-- The day-of-year number (1–366) of a calendar date: the `dayOfYear` that
the specification's tip-selection rule (`dayOfYear mod tipCount`) names. -/
def dayOfYear (y m d : Nat) : Nat := daysBeforeMonth m (isLeapYear y) + d

/-- Python's `date(y, m, d).toordinal()`: the proleptic Gregorian ordinal of
the date, counting 0001-01-01 as ordinal 1. -/
def pyToOrdinal (y m d : Nat) : Nat :=
  365 * (y - 1) + (y - 1) / 4 - (y - 1) / 100 + (y - 1) / 400 + dayOfYear y m d

example : pyToOrdinal 1 1 1 = 1 := by decide
example : pyToOrdinal 2024 1 15 = 738900 := by decide

/-! ## Report text helpers -/

/-- `s.replace("•", "-")`: the bullet substitution applied in font-fallback
mode (both strings are single characters, so the replacement is a map). -/
def replaceBullet (s : String) : String :=
  ⟨s.data.map (fun c => if c = '•' then '-' else c)⟩

/-- One pass of Python's `str.title()`: upper-case a letter that starts an
alphabetic run, lower-case the letters that continue one; every other
character (digits, spaces, the bullet, …) passes through and breaks the
run. -/
def titleAux : Bool → List Char → List Char
  | _, [] => []
  | prevAlpha, c :: cs =>
    (if c.isAlpha then (if prevAlpha then c.toLower else c.toUpper) else c) ::
      titleAux c.isAlpha cs

/-- Python's `str.title()` as applied to `record.get('category', '-')`
(ASCII letters; non-letters pass through). -/
def pyTitle (s : String) : String := ⟨titleAux false s.data⟩

/-- The decimal digit characters. -/
def digitChar (d : Nat) : Char :=
  if d = 0 then '0' else if d = 1 then '1' else if d = 2 then '2'
  else if d = 3 then '3' else if d = 4 then '4' else if d = 5 then '5'
  else if d = 6 then '6' else if d = 7 then '7' else if d = 8 then '8' else '9'

/-- Decimal digits of a natural number, most significant first. -/
def natChars (n : Nat) : List Char :=
  if _h : n < 10 then [digitChar n]
  else natChars (n / 10) ++ [digitChar (n % 10)]
  decreasing_by exact Nat.div_lt_self (by omega) (by omega)

/-- Decimal rendering of an integer (a leading `-` for negatives). -/
def intChars (i : ℤ) : List Char :=
  if i < 0 then '-' :: natChars i.natAbs else natChars i.natAbs

/-- Models Python's f-string rendering of the one-decimal numbers the
report interpolates (confidence and impact percentages): the integer part,
a dot, and the tenths digit — e.g. `12.8` and `55.0`.  Only digits, a dot
and a possible minus sign are ever produced. -/
def numRepr (q : ℚ) : String :=
  ⟨intChars ⌊q⌋ ++ '.' :: [digitChar (⌊(q - (⌊q⌋ : ℚ)) * 10⌋.natAbs)]⟩

/-! ### No fragment-building helper can produce a bullet -/

theorem replaceBullet_no_bullet (s : String) : '•' ∉ (replaceBullet s).data := by
  intro h
  rw [replaceBullet] at h
  rw [show (String.mk (s.data.map (fun c => if c = '•' then '-' else c))).data
      = s.data.map (fun c => if c = '•' then '-' else c) from rfl] at h
  rw [List.mem_map] at h
  obtain ⟨a, _, ha⟩ := h
  by_cases hb : a = '•'
  · rw [if_pos hb] at ha
    cases ha
  · rw [if_neg hb] at ha
    exact hb ha

theorem toUpper_ne_bullet (c : Char) (h : c ≠ '•') : c.toUpper ≠ '•' := by
  rw [Char.toUpper]
  by_cases hc : c.toNat ≥ 97 ∧ c.toNat ≤ 122
  · rw [if_pos hc]
    intro he
    have hv : (Char.ofNat (c.toNat - 32)).toNat = c.toNat - 32 := by
      rw [Char.ofNat, dif_pos (Or.inl (by omega : c.toNat - 32 < 55296))]
      rfl
    rw [he] at hv
    have hb : ('•' : Char).toNat = 8226 := by decide
    omega
  · rw [if_neg hc]
    exact h

theorem toLower_ne_bullet (c : Char) (h : c ≠ '•') : c.toLower ≠ '•' := by
  rw [Char.toLower]
  by_cases hc : c.toNat ≥ 65 ∧ c.toNat ≤ 90
  · rw [if_pos hc]
    intro he
    have hv : (Char.ofNat (c.toNat + 32)).toNat = c.toNat + 32 := by
      rw [Char.ofNat, dif_pos (Or.inl (by omega : c.toNat + 32 < 55296))]
      rfl
    rw [he] at hv
    have hb : ('•' : Char).toNat = 8226 := by decide
    omega
  · rw [if_neg hc]
    exact h

theorem titleAux_no_bullet (l : List Char) (b : Bool) (h : '•' ∉ l) :
    '•' ∉ titleAux b l := by
  induction l generalizing b with
  | nil => simp [titleAux]
  | cons c cs ih =>
    rw [List.mem_cons, not_or] at h
    obtain ⟨h1, h2⟩ := h
    have hc : c ≠ '•' := fun e => h1 e.symm
    rw [titleAux, List.mem_cons, not_or]
    refine ⟨?_, ih _ h2⟩
    by_cases ha : c.isAlpha
    · rw [if_pos ha]
      cases b with
      | true =>
        rw [if_pos rfl]
        exact fun e => toLower_ne_bullet c hc e.symm
      | false =>
        rw [if_neg (by simp)]
        exact fun e => toUpper_ne_bullet c hc e.symm
    · rw [if_neg ha]
      exact fun e => hc e.symm

theorem pyTitle_no_bullet (s : String) (h : '•' ∉ s.data) :
    '•' ∉ (pyTitle s).data :=
  titleAux_no_bullet s.data false h

theorem digitChar_ne_bullet (d : Nat) : digitChar d ≠ '•' := by
  rw [digitChar]
  split_ifs <;> decide

theorem natChars_no_bullet (n : Nat) : '•' ∉ natChars n := by
  induction n using natChars.induct with
  | case1 n h =>
    rw [natChars, dif_pos h]
    simp only [List.mem_singleton]
    exact fun e => digitChar_ne_bullet n e.symm
  | case2 n h ih =>
    rw [natChars, dif_neg h]
    rw [List.mem_append, List.mem_singleton]
    rintro (hm | hm)
    · exact ih hm
    · exact digitChar_ne_bullet _ hm.symm

theorem intChars_no_bullet (i : ℤ) : '•' ∉ intChars i := by
  rw [intChars]
  by_cases h : i < 0
  · rw [if_pos h, List.mem_cons, not_or]
    exact ⟨by decide, natChars_no_bullet _⟩
  · rw [if_neg h]
    exact natChars_no_bullet _

theorem numRepr_no_bullet (q : ℚ) : '•' ∉ (numRepr q).data := by
  rw [numRepr]
  intro h
  rw [show (String.mk (intChars ⌊q⌋ ++ '.' :: [digitChar (⌊(q - (⌊q⌋ : ℚ)) * 10⌋.natAbs)])).data
      = intChars ⌊q⌋ ++ '.' :: [digitChar (⌊(q - (⌊q⌋ : ℚ)) * 10⌋.natAbs)] from rfl] at h
  rcases List.mem_append.mp h with h | h
  · exact intChars_no_bullet _ h
  · rcases List.mem_cons.mp h with h | h
    · cases h
    · rw [List.mem_singleton] at h
      exact digitChar_ne_bullet _ h.symm

theorem ECO_TIPS_no_bullet : ∀ s ∈ ECO_TIPS, '•' ∉ s.data := by decide

theorem eco_tip_no_bullet (ordinal : Nat) :
    '•' ∉ (eco_tip_of_the_day ordinal).data := by
  rw [eco_tip_of_the_day]
  cases hg : ECO_TIPS[ordinal % ECO_TIPS.length]? with
  | some s =>
    rw [List.getD_eq_getElem?_getD, hg]
    exact ECO_TIPS_no_bullet s (List.getElem?_mem hg)
  | none =>
    rw [List.getD_eq_getElem?_getD, hg]
    decide

/-- Bullet-freeness is preserved by string append. -/
theorem no_bullet_append (s t : String) (hs : '•' ∉ s.data) (ht : '•' ∉ t.data) :
    '•' ∉ (s ++ t).data := by
  intro h
  rw [String.data_append] at h
  rcases List.mem_append.mp h with h | h
  · exact hs h
  · exact ht h

/-! ## The PDF report's text fragments (`make_pdf_report`) -/

/-- The text fragments of one report, one field per `_safe_cell` /
`_safe_multicell` call of `make_pdf_report` that interpolates data (the
static section headers are added by `flatten`). -/
structure ReportDoc where
  title : String
  generated : String
  summary : String
  notes : String
  shows : String
  steps : List String
  harmful : String
  tip : String
  impactLines : List String
  footer : String
  deriving DecidableEq, Repr

/-- The numbered disposal-step lines `f"{i}. {s}"`, with the per-step
bullet substitution `step.replace("•", "-")` in fallback mode. -/
def enumSteps (uok : Bool) (i : Nat) : List String → List String
  | [] => []
  | s :: rest =>
    (String.mk (natChars i) ++ ". " ++ (if uok then s else replaceBullet s)) ::
      enumSteps uok (i + 1) rest

/-- One impact-breakdown line `f"- {k}: {v}%"`. -/
def impactLine (label : String) (v : ℚ) : String :=
  "- " ++ label ++ ": " ++ numRepr v ++ "%"

/-- The data-bearing text fragments emitted by `make_pdf_report`:
`uok` is the result of `_register_unicode_font` (whether the DejaVu font
file exists), `title` the report title parameter, `now` the
`datetime.now().strftime('%Y-%m-%d %H:%M:%S')` timestamp, and `ordinal`
today's proleptic date ordinal (used by `eco_tip_of_the_day`).  In
fallback mode the title, the separator, the notes, each disposal step and
the footer have their bullets substituted; the category interpolations
(`cat_text` in the summary line and the raw category in the "what this
image shows" sentence) are emitted without substitution, as in the
source. -/
def make_report_doc (uok : Bool) (title now : String) (rec : Entry)
    (ordinal : Nat) : ReportDoc :=
  let sep := if uok then " • " else " - "
  ⟨if uok then title else replaceBullet title,
   "Generated: " ++ now,
   "Category: " ++ pyTitle rec.category ++ sep ++ "Confidence: " ++
     numRepr (round1 (rec.confidence * 100)) ++ "%",
   "Notes: " ++ (if uok then rec.notes else replaceBullet rec.notes),
   "This appears to show " ++ rec.category ++
     " waste. The materials visible require proper sorting and handling to prevent contamination.",
   enumSteps uok 1 rec.disposal_steps,
   "Improper disposal can contaminate soil and water, attract pests, release greenhouse gases and toxins, and harm local ecosystems and health.",
   eco_tip_of_the_day ordinal,
   [impactLine "Greenhouse Emissions" rec.impact_breakdown.ghg,
    impactLine "Soil Contamination" rec.impact_breakdown.soil,
    impactLine "Water Pollution" rec.impact_breakdown.water,
    impactLine "Energy Use" rec.impact_breakdown.energy],
   if uok then "EcoVision • Automated insight. Human responsibility."
   else replaceBullet "EcoVision • Automated insight. Human responsibility."⟩

/-- All fragments of the report in emission order, static section headers
included. -/
def flatten (doc : ReportDoc) : List String :=
  [doc.title, doc.generated, "Analysis Summary", doc.summary, doc.notes,
   "What This Image Shows:", doc.shows, "How to Recycle / Dispose It:"] ++
  doc.steps ++
  ["Why Improper Disposal Is Harmful:", doc.harmful, "Eco Tip of the Day:", doc.tip,
   "Impact Breakdown (%):"] ++
  doc.impactLines ++ [doc.footer]

theorem enumSteps_no_bullet (steps : List String) (i : Nat) :
    ∀ s ∈ enumSteps false i steps, '•' ∉ s.data := by
  induction steps generalizing i with
  | nil => simp [enumSteps]
  | cons st rest ih =>
    intro s hs
    rw [enumSteps] at hs
    rcases List.mem_cons.mp hs with h | h
    · subst h
      refine no_bullet_append _ _ (no_bullet_append _ _ ?_ (by decide))
        (replaceBullet_no_bullet st)
      exact natChars_no_bullet i
    · exact ih (i + 1) s h

theorem impactLine_no_bullet (label : String) (v : ℚ)
    (hl : '•' ∉ label.data) : '•' ∉ (impactLine label v).data := by
  rw [impactLine]
  refine no_bullet_append _ _ (no_bullet_append _ _ (no_bullet_append _ _
    (no_bullet_append _ _ (by decide) hl) (by decide)) (numRepr_no_bullet v)) (by decide)

/-- A record whose (unvalidated) category string contains a bullet; the
normalizer lower-cases but never validates the category, so such a record
is reachable. -/
def bulletCategoryEntry : Entry :=
  ⟨"id0", "2026-01-01T00:00:00", "pl•stic", 1/2, [], ImpactMap.zero, "", ""⟩

/-- A plain record used to instantiate report builds. -/
def plainEntry : Entry :=
  ⟨"id1", "2026-01-01T00:00:00", "paper", 9/10, [], ImpactMap.zero, "", ""⟩

/-- C3 counterexample: the bullet substitution does not cover
category-derived text.  With the Unicode font absent and a record whose
category contains a bullet, the emitted "what this image shows" fragment of
the report still contains `•` — so it is not the case that every bullet in
every emitted fragment is replaced by `-`. -/
theorem C3_counterexample :
    '•' ∈ ((make_report_doc false "EcoVision Report" "2026-01-01 00:00:00"
        bulletCategoryEntry 7).shows).data ∧
    (make_report_doc false "EcoVision Report" "2026-01-01 00:00:00"
        bulletCategoryEntry 7).shows ∈
      flatten (make_report_doc false "EcoVision Report" "2026-01-01 00:00:00"
        bulletCategoryEntry 7) := by
  constructor
  · decide
  · simp [flatten]

/-- C3 (amended): when the Unicode font is absent, every bullet in the
title, the separator, the notes, each disposal step and the footer is
replaced by `-`, and — provided the record's category field (which the
source interpolates without substitution) and the timestamp contain no
bullet — every emitted fragment of the report is bullet-free; when the
font is present, no substitution occurs (title, notes, steps and the
bullet-bearing separator and footer are emitted verbatim). -/
theorem C3_font_fallback_amended (title now : String) (rec : Entry) (ordinal : Nat)
    (hcat : '•' ∉ rec.category.data) (hnow : '•' ∉ now.data) :
    (∀ f ∈ flatten (make_report_doc false title now rec ordinal), '•' ∉ f.data) ∧
    ((make_report_doc true title now rec ordinal).title = title ∧
     (make_report_doc true title now rec ordinal).notes = "Notes: " ++ rec.notes ∧
     (make_report_doc true title now rec ordinal).steps =
       enumSteps true 1 rec.disposal_steps ∧
     (make_report_doc true title now rec ordinal).footer =
       "EcoVision • Automated insight. Human responsibility.") := by
  constructor
  · intro f hf
    rw [flatten] at hf
    simp only [List.mem_append, List.mem_cons, List.mem_singleton,
      List.not_mem_nil, or_false] at hf
    rcases hf with ((((rfl | rfl | rfl | rfl | rfl | rfl | rfl | rfl) | hf) |
        (rfl | rfl | rfl | rfl | rfl)) | hf) | rfl
    · exact replaceBullet_no_bullet title
    · exact no_bullet_append _ _ (by decide) hnow
    · decide
    · exact no_bullet_append _ _ (no_bullet_append _ _ (no_bullet_append _ _
        (no_bullet_append _ _ (no_bullet_append _ _ (by decide)
          (pyTitle_no_bullet _ hcat)) (by decide)) (by decide))
        (numRepr_no_bullet _)) (by decide)
    · exact no_bullet_append _ _ (by decide) (replaceBullet_no_bullet _)
    · decide
    · exact no_bullet_append _ _ (no_bullet_append _ _ (by decide) hcat) (by decide)
    · decide
    · exact enumSteps_no_bullet rec.disposal_steps 1 f hf
    · decide
    · show '•' ∉ (("Improper disposal can contaminate soil and water, attract pests, release greenhouse gases and toxins, and harm local ecosystems and health." : String)).data
      decide
    · decide
    · exact eco_tip_no_bullet ordinal
    · decide
    · replace hf : f ∈
          [impactLine "Greenhouse Emissions" rec.impact_breakdown.ghg,
           impactLine "Soil Contamination" rec.impact_breakdown.soil,
           impactLine "Water Pollution" rec.impact_breakdown.water,
           impactLine "Energy Use" rec.impact_breakdown.energy] := hf
      simp only [List.mem_cons, List.mem_singleton, List.not_mem_nil, or_false] at hf
      rcases hf with rfl | rfl | rfl | rfl <;>
        exact impactLine_no_bullet _ _ (by decide)
    · exact replaceBullet_no_bullet _
  · exact ⟨rfl, rfl, rfl, rfl⟩

/-- C3 witness: the amended theorem applied at a concrete record and
timestamp (bullet-free category), specialised to the footer fragment. -/
theorem C3_font_fallback_amended_witness :
    '•' ∉ ((make_report_doc false "EcoVision Report" "2026-01-01 00:00:00"
        plainEntry 3).footer).data :=
  (C3_font_fallback_amended "EcoVision Report" "2026-01-01 00:00:00"
      plainEntry 3 (by decide) (by decide)).1 _ (by simp [flatten])

/-- C5 counterexample: the emitted eco tip is indexed by the date's
proleptic ordinal (`date.today().toordinal()`), not by the day-of-year
number named in the claim.  On 2024-01-15 the ordinal is 738900
(index `0 = 738900 mod 10`), while the day-of-year is 15
(index `5 = 15 mod 10`), and the two selected tip strings differ. -/
theorem C5_counterexample :
    (make_report_doc false "T" "N" plainEntry (pyToOrdinal 2024 1 15)).tip ≠
      ECO_TIPS.getD (dayOfYear 2024 1 15 % ECO_TIPS.length) "" := by
  decide

/-- C5 (amended): the tip emitted in every report is selected from the
fixed static tip list by index (date ordinal) mod tipCount — Python's
`date.today().toordinal() % len(ECO_TIPS)`, the index always being in
bounds — so any two report builds performed on the same calendar day emit
the identical tip string, regardless of record content, font mode, title
or timestamp. -/
theorem C5_eco_tip_amended (y m d : Nat) (u1 u2 : Bool)
    (t1 t2 n1 n2 : String) (r1 r2 : Entry) :
    ((make_report_doc u1 t1 n1 r1 (pyToOrdinal y m d)).tip =
      ECO_TIPS.getD (pyToOrdinal y m d % ECO_TIPS.length) "") ∧
    ((make_report_doc u1 t1 n1 r1 (pyToOrdinal y m d)).tip ∈
      flatten (make_report_doc u1 t1 n1 r1 (pyToOrdinal y m d))) ∧
    (∃ hlt : pyToOrdinal y m d % ECO_TIPS.length < ECO_TIPS.length,
      (make_report_doc u1 t1 n1 r1 (pyToOrdinal y m d)).tip =
        ECO_TIPS.get ⟨pyToOrdinal y m d % ECO_TIPS.length, hlt⟩) ∧
    ((make_report_doc u1 t1 n1 r1 (pyToOrdinal y m d)).tip =
      (make_report_doc u2 t2 n2 r2 (pyToOrdinal y m d)).tip) := by
  have hlt : pyToOrdinal y m d % ECO_TIPS.length < ECO_TIPS.length :=
    Nat.mod_lt _ (by decide)
  refine ⟨rfl, by simp [flatten], ⟨hlt, ?_⟩, rfl⟩
  show eco_tip_of_the_day (pyToOrdinal y m d) = _
  rw [eco_tip_of_the_day, List.getD_eq_getElem _ _ hlt]
  rfl

/-! ## Score heuristic -/

/-- Modelled from the spec: the Score Heuristic of §4.5 ("green ratio")
has no implementation under `src/` (the repository source holds only the
waste pipeline); per the spec, a pixel `(r, g, b)` on a 0–1 scale is green
when the green channel exceeds 0.35 and exceeds both red and blue by at
least 0.06. -/
def is_green (p : ℚ × ℚ × ℚ) : Bool :=
  decide (35 / 100 < p.2.1) && decide (p.1 + 6 / 100 ≤ p.2.1) &&
    decide (p.2.2 + 6 / 100 ≤ p.2.1)

/-- Modelled from the spec: the green-coverage ratio, the fraction of the
image's pixels passing the green test (0 for an empty pixel list, a case
the spec leaves unspecified). -/
def green_ratio (px : List (ℚ × ℚ × ℚ)) : ℚ :=
  if px = [] then 0 else (px.countP is_green : ℚ) / (px.length : ℚ)

/-- Modelled from the spec: `score = round(min(100, max(0, ratio * 140)))`,
a pure function of the pixel data with no other inputs. -/
def green_score (px : List (ℚ × ℚ × ℚ)) : ℤ :=
  round (min 100 (max 0 (green_ratio px * 140)))

/-- C9: the Score Heuristic is a pure, deterministic function of the pixel
data alone: its value is exactly `round(min(100, max(0, ratio * 140)))`
where the ratio is the fraction of pixels whose green channel exceeds 0.35
and exceeds both red and blue by at least 0.06; the resulting score always
lies in [0, 100]. -/
theorem C9_green_score (px : List (ℚ × ℚ × ℚ)) :
    green_score px = round (min 100 (max 0 (green_ratio px * 140))) ∧
    (px ≠ [] → green_ratio px = (px.countP is_green : ℚ) / (px.length : ℚ)) ∧
    0 ≤ green_score px ∧ green_score px ≤ 100 := by
  have hv0 : (0 : ℚ) ≤ min 100 (max 0 (green_ratio px * 140)) :=
    le_min (by norm_num) (le_max_left 0 _)
  have hv1 : min 100 (max 0 (green_ratio px * 140)) ≤ 100 := min_le_left _ _
  refine ⟨rfl, fun h => by rw [green_ratio, if_neg h], ?_, ?_⟩
  · rw [green_score, round_eq]
    exact Int.le_floor.mpr (by push_cast; linarith)
  · rw [green_score, round_eq]
    have hm := Int.floor_mono (show min 100 (max 0 (green_ratio px * 140)) + 1 / 2 ≤
      (201 / 2 : ℚ) by linarith)
    have h100 : (⌊(201 / 2 : ℚ)⌋ : ℤ) = 100 := by norm_num
    omega

/-- C9 witness: the theorem applied at a concrete one-pixel image (a pure
green pixel), whose ratio is 1 and whose score formula evaluates there. -/
theorem C9_green_score_witness :
    green_ratio [((0 : ℚ), (1 : ℚ), (0 : ℚ))] =
      (([((0 : ℚ), (1 : ℚ), (0 : ℚ))].countP is_green : ℚ) /
        (([((0 : ℚ), (1 : ℚ), (0 : ℚ))] : List (ℚ × ℚ × ℚ)).length : ℚ)) :=
  (C9_green_score [((0 : ℚ), (1 : ℚ), (0 : ℚ))]).2.1 (by simp)

end EcoVision
